import Mathlib

/-!
Shallow embedding of the job orchestration core of the advanced-download-manager
backend (NestJS + BullMQ + Prisma), together with proofs about the natural
language specification of that core.

The embedding follows the TypeScript source:
* `DownloadsService` (src/backend/src/modules/downloads/downloads.service.ts):
  the JobStore operations on a persisted `jobs` row.
* `QueueService` (src/backend/src/shared/queue.service.ts): broker enqueue
  priority policy.
* `CreateDownloadSchema` (src/backend/src/shared/dto/download.dto.ts): the zod
  validation applied before `DownloadsService.createDownload`.
* `WorkerEventsGateway` (src/backend/src/modules/websocket/websocket.gateway.ts):
  the per-job progress throttle pipeline, modelled as a timed state machine.
* `YtDlpDownloader.parseProgress` / `parseYtDlpProgressLine` and the
  `PinterestDownloader` stdout handler (src/backend/src/workers): adapter
  progress parsing and forwarding.

Prisma update semantics: a field whose value is `undefined` is left unchanged
by `job.update`; this is modelled by `orKeep`.  JavaScript numbers carrying
progress values are modelled by `Rat`.  `updatedAt` is set on every update
(Prisma `@updatedAt`), modelled by a `now : Nat` argument.
-/

deriving instance DecidableEq for Except

namespace ADM

/-- One persisted row of the `jobs` table (Prisma migration: columns id, url,
type, status, stage, progress, speed, eta, totalBytes, filename, outputPath,
errorCode, errorMessage, meta, headers, createdAt, updatedAt).  The JSON TEXT
columns `meta` and `headers` hold the stringified submission options; the
JSON round trip is modelled by storing the payload strings themselves. -/
structure JobRow where
  id : String
  url : String
  type : String
  status : String
  stage : Option String
  progress : Rat
  speed : Option String
  eta : Option Int
  totalBytes : Option Int
  filename : Option String
  outputPath : Option String
  errorCode : Option String
  errorMessage : Option String
  meta : Option String
  headers : Option String
  createdAt : Nat
  updatedAt : Nat
deriving DecidableEq, Repr

/-- Errors thrown by `DownloadsService`: `NotFoundException` and
`BadRequestException` (the latter is the surface of the spec's
`IllegalTransition` / `InvalidInput` errors). -/
inductive SvcErr
  | notFound
  | badRequest (msg : String)
deriving DecidableEq, Repr

/-- Prisma update-field semantics: an optional argument that is `undefined`
(`none`) leaves the stored column unchanged; a present value overwrites it. -/
def orKeep (new : Option α) (old : Option α) : Option α :=
  match new with
  | none => old
  | some v => some v

/-- `DownloadsService.updateJobProgress(jobId, progress, stage?, speed?, eta?,
totalBytes?)`: single-row update writing the supplied progress value and
touching stage/speed/eta/totalBytes only when supplied.  The incoming
`progress` value is stored as-is. -/
def updateJobProgress (row : JobRow) (progress : Rat) (stage : Option String)
    (speed : Option String) (eta : Option Int) (totalBytes : Option Int)
    (now : Nat) : JobRow :=
  { row with
    progress := progress
    stage := orKeep stage row.stage
    speed := orKeep speed row.speed
    eta := orKeep eta row.eta
    totalBytes := orKeep totalBytes row.totalBytes
    updatedAt := now }

/-- `DownloadsService.updateJobStatus(jobId, status, errorCode?, errorMessage?)`:
unconditionally stores the requested status; error fields are touched only
when supplied. -/
def updateJobStatus (row : JobRow) (status : String)
    (errorCode : Option String) (errorMessage : Option String) (now : Nat) :
    JobRow :=
  { row with
    status := status
    errorCode := orKeep errorCode row.errorCode
    errorMessage := orKeep errorMessage row.errorMessage
    updatedAt := now }

/-- `DownloadsService.setJobCompleted(jobId, filename, outputPath, fileSize?)`:
terminal success update.  `totalBytes: fileSize ? BigInt(fileSize) : undefined`
uses JavaScript truthiness, so a missing or zero `fileSize` leaves the column
unchanged.  The error columns are not part of the update payload. -/
def setJobCompleted (row : JobRow) (filename : String) (outputPath : String)
    (fileSize : Option Int) (now : Nat) : JobRow :=
  { row with
    status := "completed"
    filename := some filename
    outputPath := some outputPath
    totalBytes :=
      match fileSize with
      | some s => if s = 0 then row.totalBytes else some s
      | none => row.totalBytes
    progress := 100
    stage := some "completed"
    updatedAt := now }

/-- `DownloadsService.cancelDownload(jobId)`: looks the row up, rejects only
when the job is already `completed`, otherwise removes the queue entry and
stores `status = cancelled`, `stage = null`. -/
def cancelDownload (found : Option JobRow) (now : Nat) :
    Except SvcErr JobRow :=
  match found with
  | none => .error .notFound
  | some job =>
    if job.status = "completed" then
      .error (.badRequest "Cannot cancel completed job")
    else
      .ok { job with status := "cancelled", stage := none, updatedAt := now }

/-- The payload handed to `QueueService.addDownloadJob` (interface
`DownloadJobData`; the opaque option objects travel as their stored JSON). -/
structure DownloadJobData where
  jobId : String
  url : String
  type : String
  headers : Option String
  transcode : Option String
  filenameHint : Option String
deriving DecidableEq, Repr

/-- JavaScript `x || undefined` on an optional string: the empty string is
falsy and becomes `undefined`. -/
def strOrUndef (s : Option String) : Option String :=
  match s with
  | some t => if t = "" then none else some t
  | none => none

/-- `DownloadsService.retryDownload(jobId)`: requires status `failed` or
`cancelled`; resets progress and stage, clears speed/eta/error fields, stores
`status = queued` and re-enqueues the job with its stored url, type, headers,
transcode options and filename hint. -/
def retryDownload (found : Option JobRow) (now : Nat) :
    Except SvcErr (JobRow × DownloadJobData) :=
  match found with
  | none => .error .notFound
  | some job =>
    if job.status ≠ "failed" ∧ job.status ≠ "cancelled" then
      .error (.badRequest "Can only retry failed or cancelled jobs")
    else
      .ok
        ({ job with
            status := "queued"
            progress := 0
            stage := none
            speed := none
            eta := none
            errorCode := none
            errorMessage := none
            updatedAt := now },
         { jobId := job.id
           url := job.url
           type := job.type
           headers := job.headers
           transcode := job.meta
           filenameHint := strOrUndef job.filename })

/-- Snapshot returned by `DownloadsService.getDownload`: the exact field list
of the object literal built there (`totalBytes` is serialised through
`toString`).  `outputPath`, `meta` and `headers` are not part of it. -/
structure JobSnapshot where
  jobId : String
  url : String
  type : String
  status : String
  stage : Option String
  progress : Rat
  speed : Option String
  eta : Option Int
  totalBytes : Option String
  filename : Option String
  createdAt : Nat
  updatedAt : Nat
  errorCode : Option String
  errorMessage : Option String
deriving DecidableEq, Repr

/-- `DownloadsService.getDownload(jobId)`: `NotFound` when absent, otherwise
the projection of the row into `JobSnapshot`. -/
def getDownload (found : Option JobRow) : Except SvcErr JobSnapshot :=
  match found with
  | none => .error .notFound
  | some job =>
    .ok
      { jobId := job.id
        url := job.url
        type := job.type
        status := job.status
        stage := job.stage
        progress := job.progress
        speed := job.speed
        eta := job.eta
        totalBytes := job.totalBytes.map (fun n => toString n)
        filename := job.filename
        createdAt := job.createdAt
        updatedAt := job.updatedAt
        errorCode := job.errorCode
        errorMessage := job.errorMessage }

/-- A scheme character of the WHATWG URL grammar: ASCII alphanumeric, plus,
minus or dot. -/
def isSchemeChar (c : Char) : Bool :=
  c.isAlpha || c.isDigit || c = '+' || c = '-' || c = '.'

/-- Scheme extraction of the WHATWG URL parser (the parser behind the
JavaScript `new URL(...)` constructor): the maximal leading run of scheme
characters starting with an ASCII letter, immediately followed by a colon,
lower-cased.  Returns `none` when the string has no such prefix. -/
def urlScheme (s : String) : Option String :=
  match s.data with
  | [] => none
  | c :: _ =>
    if c.isAlpha then
      let pre := s.data.takeWhile isSchemeChar
      match s.data.drop pre.length with
      | ':' :: _ => some (String.mk (pre.map Char.toLower))
      | _ => none
    else none

/-- Models success of the JavaScript `new URL(...)` constructor, which is the
check performed by zod's `z.string().url()` in `CreateDownloadSchema`.  The
constructor accepts any absolute URL regardless of scheme; it is modelled by
the fragment relevant here: a valid scheme must be present, and the special
schemes (http, https, ws, wss, ftp) additionally need a nonempty host after
the slashes.  Non-special schemes accept any remainder. -/
def jsUrlParses (s : String) : Bool :=
  match urlScheme s with
  | none => false
  | some sch =>
    if sch = "http" || sch = "https" || sch = "ws" || sch = "wss" || sch = "ftp" then
      let rest := (s.data.dropWhile (fun c => c ≠ ':')).drop 1
      ((rest.dropWhile (fun c => c = '/' || c = '\\')).length != 0)
    else
      true

/-- Characters removed by the npm `sanitize-filename` package (path
separators, reserved characters and control characters; the Windows reserved
name handling and the 255-byte truncation are not needed by any claim and are
modelled by plain removal plus truncation). -/
def illegalFilenameChar (c : Char) : Bool :=
  c = '/' || c = '\\' || c = '?' || c = '<' || c = '>' || c = ':' ||
  c = '*' || c = '|' || c = '"' || c.toNat < 32

/-- Models the npm `sanitize-filename` call used by
`DownloadsService.createDownload` and the worker adapters. -/
def sanitizeFilename (s : String) : String :=
  String.mk ((s.data.filter (fun c => !(illegalFilenameChar c))).take 255)

/-- The `type` enum of `CreateDownloadSchema`. -/
def kindEnum : List String := ["auto", "m3u8", "file", "youtube", "twitter", "pinterest"]

/-- Lower-casing used for the header allow-list comparison. -/
def toLowerStr (s : String) : String := String.mk (s.data.map Char.toLower)

/-- The header keys accepted by `DownloadsService.createDownload`. -/
def allowedHeaderKeys : List String :=
  ["user-agent", "referer", "authorization", "cookie", "accept"]

/-- A submission request as bound by `CreateDownloadSchema` (the nested
transcode / twitter / pinterest option objects are opaque to every claim and
travel as their JSON text; `headersExtra` is the `headers.extra` record). -/
structure CreateReq where
  url : String
  type : Option String
  headersExtra : Option (List (String × String))
  headersJson : Option String
  transcodeJson : Option String
  filenameHint : Option String
deriving DecidableEq, Repr

/-- The filename-hint handling of `DownloadsService.createDownload`: a truthy
hint is sanitized and an empty-after-sanitization result is rejected. -/
def validateHint (hint : Option String) : Except SvcErr (Option String) :=
  match hint with
  | none => .ok none
  | some h =>
    if h = "" then .ok none
    else
      let s := sanitizeFilename h
      if s = "" then .error (.badRequest "Invalid filename hint")
      else .ok (some s)

/-- The `headers.extra` allow-list check of `DownloadsService.createDownload`. -/
def headersAllowed (extra : Option (List (String × String))) : Bool :=
  match extra with
  | none => true
  | some kvs => kvs.all (fun kv => allowedHeaderKeys.contains (toLowerStr kv.1))

/-- `Submit`: the zod `CreateDownloadSchema` validation (url must parse via
`new URL`, type must be in the enum, defaulting to `auto`) followed by
`DownloadsService.createDownload` (hint sanitization, header allow-list,
row insertion with `status = queued` and enqueue). -/
def createDownload (req : CreateReq) (jobId : String) (now : Nat) :
    Except SvcErr (JobRow × DownloadJobData) :=
  if !(jsUrlParses req.url) then .error (.badRequest "Must be a valid URL")
  else
    let ty := req.type.getD "auto"
    if !(kindEnum.contains ty) then .error (.badRequest "Invalid enum value")
    else
      match validateHint req.filenameHint with
      | .error e => .error e
      | .ok sanitizedFilename =>
        if !(headersAllowed req.headersExtra) then
          .error (.badRequest "Header is not allowed")
        else
          .ok
            ({ id := jobId
               url := req.url
               type := ty
               status := "queued"
               stage := none
               progress := 0
               speed := none
               eta := none
               totalBytes := none
               filename := sanitizedFilename
               outputPath := none
               errorCode := none
               errorMessage := none
               meta := req.transcodeJson
               headers := req.headersJson
               createdAt := now
               updatedAt := now },
             { jobId := jobId
               url := req.url
               type := ty
               headers := req.headersJson
               transcode := req.transcodeJson
               filenameHint := sanitizedFilename })

/-- `QueueService.addDownloadJob(data, priority = 3)`: the BullMQ job options
priority, overridden to 5 when the job type is `youtube`. -/
def addDownloadJobPriority (ty : String) (priority : Nat) : Nat :=
  if ty = "youtube" then 5 else priority

/-- Effective enqueue priority: every call site of `addDownloadJob` in the
repository uses the default priority argument 3. -/
def enqueuePriority (data : DownloadJobData) : Nat :=
  addDownloadJobPriority data.type 3

/-! ### Adapter progress parsing (yt-dlp and pinterest workers) -/

/-- Whitespace as matched by the JavaScript regex class backslash-s (the rare
Unicode space characters are not needed by any claim). -/
def isJsWs (c : Char) : Bool :=
  c = ' ' || c = '\t' || c = '\n' || c = '\r' || c = '\x0b' || c = '\x0c'

/-- Numeric value of a digit run. -/
def natOfDigits (ds : List Char) : Nat :=
  ds.foldl (fun n c => 10 * n + (c.toNat - 48)) 0

/-- Exact value of a decimal literal with integer part `ds` and fractional
part `fs` (models `parseFloat` on the matched number; the values appearing in
progress lines are short decimals on which IEEE and exact evaluation agree
for every comparison made by the code). -/
def ratOfDecimal (ds fs : List Char) : Rat :=
  mkRat (natOfDigits ds * 10 ^ fs.length + natOfDigits fs) (10 ^ fs.length)

/-- Drops a literal character sequence, failing when it does not match. -/
def dropLit : List Char → List Char → Option (List Char)
  | [], cs => some cs
  | l :: ls, c :: cs => if c = l then dropLit ls cs else none
  | _ :: _, [] => none

/-- The percentage group of the yt-dlp progress regex: one or more digits, an
optional fractional part, immediately followed by a percent sign (maximal
munch, which agrees with the regex on every line whose digit run is followed
by the percent sign). -/
def matchProgressNumber (cs : List Char) : Option (Rat × List Char) :=
  let ds := cs.takeWhile Char.isDigit
  if ds.isEmpty then none
  else
    match cs.drop ds.length with
    | '.' :: rest2 =>
      let fs := rest2.takeWhile Char.isDigit
      if fs.isEmpty then none
      else
        match rest2.drop fs.length with
        | '%' :: tail => some (ratOfDecimal ds fs, tail)
        | _ => none
    | '%' :: tail => some (ratOfDecimal ds [], tail)
    | _ => none

/-- The ETA group of the yt-dlp progress regex: one or two digits, a colon,
two digits, and optionally a second colon with two digits. -/
def matchEta (cs : List Char) : Option (List Nat) :=
  let ds := cs.takeWhile Char.isDigit
  if ds.length = 1 || ds.length = 2 then
    match cs.drop ds.length with
    | ':' :: a :: b :: rest2 =>
      if a.isDigit && b.isDigit then
        match rest2 with
        | ':' :: c :: d :: _ =>
          if c.isDigit && d.isDigit then
            some [natOfDigits ds, natOfDigits [a, b], natOfDigits [c, d]]
          else some [natOfDigits ds, natOfDigits [a, b]]
        | _ => some [natOfDigits ds, natOfDigits [a, b]]
      else none
    | _ => none
  else none

/-- ETA conversion of `parseYtDlpProgressLine`: three parts are
hours/minutes/seconds, two parts are minutes/seconds. -/
def etaSeconds (parts : List Nat) : Option Nat :=
  match parts with
  | [a, b, c] => some (a * 3600 + b * 60 + c)
  | [a, b] => some (a * 60 + b)
  | _ => none

/-- The speed and ETA tail of the yt-dlp progress regex, anchored at the
current position: the literal at, whitespace, a nonempty run of non-space
characters (the speed), whitespace, the literal ETA, whitespace, and the ETA
group. -/
def matchAtSpeedEta (cs : List Char) : Option (String × Nat) :=
  match cs with
  | 'a' :: 't' :: rest =>
    let ws1 := rest.takeWhile isJsWs
    if ws1.isEmpty then none
    else
      let afterWs := rest.drop ws1.length
      let speed := afterWs.takeWhile (fun c => !(isJsWs c))
      if speed.isEmpty then none
      else
        let afterSpeed := afterWs.drop speed.length
        let ws2 := afterSpeed.takeWhile isJsWs
        if ws2.isEmpty then none
        else
          match afterSpeed.drop ws2.length with
          | 'E' :: 'T' :: 'A' :: rest2 =>
            let ws3 := rest2.takeWhile isJsWs
            if ws3.isEmpty then none
            else
              match matchEta (rest2.drop ws3.length) with
              | some parts => (etaSeconds parts).map (fun e => (String.mk speed, e))
              | none => none
          | _ => none
  | _ => none

/-- The lazy gap of the yt-dlp progress regex: the speed and ETA tail is
matched at the earliest possible position. -/
def findSpeedEta : List Char → Option (String × Nat)
  | [] => none
  | c :: rest =>
    match matchAtSpeedEta (c :: rest) with
    | some r => some r
    | none => findSpeedEta rest

/-- The yt-dlp progress regex anchored at the current position: the literal
download tag, whitespace, the percentage group, then the lazy gap to the
speed and ETA tail. -/
def matchYtProgressAt (cs : List Char) : Option (Rat × String × Nat) :=
  match dropLit ("[download]".data) cs with
  | none => none
  | some rest =>
    let ws := rest.takeWhile isJsWs
    if ws.isEmpty then none
    else
      match matchProgressNumber (rest.drop ws.length) with
      | none => none
      | some (p, tail) =>
        match findSpeedEta tail with
        | some (speed, eta) => some (p, speed, eta)
        | none => none

/-- Unanchored search for the yt-dlp progress pattern. -/
def ytProgressSearch : List Char → Option (Rat × String × Nat)
  | [] => none
  | c :: rest =>
    match matchYtProgressAt (c :: rest) with
    | some r => some r
    | none => ytProgressSearch rest

/-- A character of the size capture group (digits and dots). -/
def isSizeChar (c : Char) : Bool := c.isDigit || c = '.'

/-- `parseFloat` on a nonempty run of digits and dots: leading digits,
optionally a dot and more digits (`parseFloat` stops at a second dot); the
value is returned as a scaled mantissa and the power of ten of the scale.  A
run with no digits around the first dot at all is NaN, modelled as `none` (no
claim depends on the NaN corner). -/
def parseFloatCapture (cs : List Char) : Option (Nat × Nat) :=
  let ds := cs.takeWhile Char.isDigit
  match cs.drop ds.length with
  | '.' :: rest =>
    let fs := rest.takeWhile Char.isDigit
    if ds.isEmpty && fs.isEmpty then none
    else some (natOfDigits ds * 10 ^ fs.length + natOfDigits fs, fs.length)
  | _ => if ds.isEmpty then none else some (natOfDigits ds, 0)

/-- A binary size unit letter (case-insensitive in the size regex). -/
def isUnitChar (c : Char) : Bool :=
  let u := c.toUpper
  u = 'K' || u = 'M' || u = 'G' || u = 'T'

/-- Case-insensitive match of the iB suffix. -/
def matchIB : List Char → Bool
  | i :: b :: _ => i.toLower = 'i' && b.toLower = 'b'
  | _ => false

/-- The optional unit group followed by the iB suffix (with the regex
backtracking on the optional group). -/
def sizeUnitIB (cs : List Char) : Option (Option Char) :=
  match cs with
  | c :: rest =>
    if isUnitChar c && matchIB rest then some (some c.toUpper)
    else if matchIB cs then some none
    else none
  | [] => none

/-- The byte multiplier applied by `parseYtDlpProgressLine` per unit letter. -/
def unitMultiplier (u : Option Char) : Nat :=
  match u with
  | some 'K' => 1024
  | some 'M' => 1024 * 1024
  | some 'G' => 1024 * 1024 * 1024
  | some 'T' => 1024 * 1024 * 1024 * 1024
  | _ => 1

/-- The size pattern of `parseYtDlpProgressLine` anchored at the current
position: the literal of (case-insensitive), whitespace, the number capture,
optional whitespace, the optional unit and the iB suffix; the result is
`Math.floor` of the scaled value. -/
def matchSizeAt (cs : List Char) : Option Int :=
  match cs with
  | o :: f :: rest =>
    if o.toLower = 'o' && f.toLower = 'f' then
      let ws := rest.takeWhile isJsWs
      if ws.isEmpty then none
      else
        let afterWs := rest.drop ws.length
        let num := afterWs.takeWhile isSizeChar
        if num.isEmpty then none
        else
          let afterNum := afterWs.drop num.length
          let ws2 := afterNum.takeWhile isJsWs
          match sizeUnitIB (afterNum.drop ws2.length) with
          | some u =>
            match parseFloatCapture num with
            | some v => some ((v.1 * unitMultiplier u / 10 ^ v.2 : Nat) : Int)
            | none => none
          | none => none
    else none
  | _ => none

/-- Unanchored search for the size pattern. -/
def ytSizeSearch : List Char → Option Int
  | [] => none
  | c :: rest =>
    match matchSizeAt (c :: rest) with
    | some r => some r
    | none => ytSizeSearch rest

/-- Result of `parseYtDlpProgressLine`: present when the progress pattern or
the size pattern matched; a missing progress defaults to 0. -/
structure YtParsed where
  progress : Rat
  speed : Option String
  eta : Option Nat
  totalBytes : Option Int
deriving DecidableEq, Repr

/-- `parseYtDlpProgressLine` (src/backend/src/workers/ytdlp-downloader.ts):
parses one stderr line into a progress delta. -/
def parseYtDlpProgressLine (line : String) : Option YtParsed :=
  let pm := ytProgressSearch line.data
  let tb := ytSizeSearch line.data
  match pm, tb with
  | none, none => none
  | _, _ =>
    some
      { progress := (pm.map (fun x => x.1)).getD 0
        speed := pm.map (fun x => x.2.1)
        eta := pm.map (fun x => x.2.2)
        totalBytes := tb }

/-- A `progress` event on the worker channel (interface `ProgressEvent` of
websocket.gateway.ts; `stage` is required there, the rest optional). -/
structure GwProgressEvent where
  jobId : String
  stage : String
  progress : Rat
  speed : Option String
  eta : Option Nat
  totalBytes : Option Int
deriving DecidableEq, Repr

/-- `YtDlpDownloader.parseProgress`: the progress event emitted over the
worker channel for one parsed stderr line.  The parsed percentage is
forwarded without modification. -/
def ytdlpForward (jobId : String) (line : String) : Option GwProgressEvent :=
  (parseYtDlpProgressLine line).map (fun p =>
    { jobId := jobId
      stage := "download"
      progress := p.progress
      speed := p.speed
      eta := p.eta
      totalBytes := p.totalBytes })

/-- Result of `parsePinterestProgressLine`: download counters or an explicit
percent (already clamped to 0..100 by the parser). -/
structure PinParsed where
  downloaded : Option Nat
  total : Option Nat
  percent : Option Nat
deriving DecidableEq, Repr

/-- Loop state of the `PinterestDownloader` stdout handler. -/
structure PinState where
  totalImages : Nat
  lastProgress : Int
deriving DecidableEq, Repr

/-- One iteration of the `PinterestDownloader` stdout handler for a line the
parser recognised: a truthy `parsed.total` updates `totalImages`; the
percentage is the floor of downloaded over total scaled to 100 (or the
explicit percent), clamped to the 0..95 band, and emitted only when it
strictly increased.  The floor of the floating point division of the source
is modelled by the exact natural floor division, which can differ from IEEE
by one unit on some inputs; the clamp bound proved about this function is
insensitive to that. -/
def pinterestStep (st : PinState) (parsed : PinParsed) : PinState × Option Int :=
  let totalImages : Nat :=
    match parsed.total with
    | some t => if t = 0 then st.totalImages else t
    | none => st.totalImages
  let progressRaw : Option Int :=
    match parsed.downloaded with
    | some d =>
      if 0 < totalImages then some ((d * 100 / totalImages : Nat) : Int)
      else parsed.percent.map (fun p => (p : Int))
    | none => parsed.percent.map (fun p => (p : Int))
  match progressRaw with
  | none => ({ totalImages := totalImages, lastProgress := st.lastProgress }, none)
  | some p0 =>
    let p := max 0 (min 95 p0)
    if st.lastProgress < p then
      ({ totalImages := totalImages, lastProgress := p }, some p)
    else
      ({ totalImages := totalImages, lastProgress := st.lastProgress }, none)

/-! ### WorkerEventsGateway: per-job progress throttle pipeline

The gateway keeps `progressBuffer` and `progressTimers` maps keyed by jobId;
every map access in the handlers uses the incoming event's jobId, so distinct
jobs never interact and the pipeline decomposes into independent per-job
state machines.  One job's machine is modelled below: the state is the
buffered delta and the pending one-shot timer's fire time, the input is the
job's timestamped worker-channel messages (timestamps in milliseconds,
nondecreasing — the socket delivers them in order), and the timer fires as
soon as its fire time is reached (before an arrival carrying an equal or
later timestamp, and at its own fire time after the last arrival). -/

/-- `completed` event of the worker channel (interface `CompletedEvent`). -/
structure GwCompletedEvent where
  jobId : String
  filename : String
  size : Int
  outputPath : String
deriving DecidableEq, Repr

/-- `failed` event of the worker channel (interface `FailedEvent`). -/
structure GwFailedEvent where
  jobId : String
  errorCode : String
  message : String
deriving DecidableEq, Repr

/-- A worker-channel message handled by `WorkerEventsGateway`. -/
inductive WorkerMsg
  | progress (e : GwProgressEvent)
  | completed (e : GwCompletedEvent)
  | failed (e : GwFailedEvent)
deriving DecidableEq, Repr

/-- An event published to the UI room `job:jobId` through `WebSocketGateway`. -/
inductive RoomPublish
  | progress (e : GwProgressEvent)
  | completed (e : GwCompletedEvent)
  | failed (e : GwFailedEvent)
deriving DecidableEq, Repr

/-- A persistence call into `DownloadsService` issued by the gateway. -/
inductive DbCall
  | updateProgress (jobId : String) (progress : Rat) (stage speed : Option String)
      (eta : Option Nat) (totalBytes : Option Int)
  | setCompleted (jobId filename outputPath : String) (size : Option Int)
  | updateStatus (jobId status : String) (errorCode errorMessage : Option String)
deriving DecidableEq, Repr

/-- The `updateJobProgress` call built from a buffered progress event
(`stage` is a required event field and is always passed). -/
def progressWriteOf (e : GwProgressEvent) : DbCall :=
  .updateProgress e.jobId e.progress (some e.stage) e.speed e.eta e.totalBytes

/-- Per-job gateway state: the buffered latest delta and the pending timer's
fire time. -/
structure GwState where
  buffer : Option GwProgressEvent
  timer : Option Nat
deriving DecidableEq, Repr

/-- Outputs of a run: room publications and persistence calls, each stamped
with the time they happen. -/
structure GwOut where
  pubs : List (Nat × RoomPublish)
  writes : List (Nat × DbCall)
deriving DecidableEq, Repr

/-- The timer callback of `handleProgress`: forget the timer, persist the
buffered delta when one is present, clear the buffer. -/
def fireTimer (st : GwState) (ft : Nat) : GwState × List (Nat × DbCall) :=
  match st.buffer with
  | none => (⟨none, none⟩, [])
  | some e => (⟨none, none⟩, [(ft, progressWriteOf e)])

/-- One message handler of `WorkerEventsGateway` at time `t`:
`handleProgress` publishes to the room immediately, buffers the delta and
arms the timer at `t + throttle` when none is pending; `handleCompleted` and
`handleFailed` cancel the timer, drop the buffer, persist the terminal state
and publish the terminal event. -/
def handleMsg (throttle : Nat) (t : Nat) (m : WorkerMsg) (st : GwState) :
    GwState × List (Nat × RoomPublish) × List (Nat × DbCall) :=
  match m with
  | .progress e =>
    (⟨some e, match st.timer with | some ft => some ft | none => some (t + throttle)⟩,
     [(t, .progress e)], [])
  | .completed e =>
    (⟨none, none⟩, [(t, .completed e)],
     [(t, .setCompleted e.jobId e.filename e.outputPath (some e.size))])
  | .failed e =>
    (⟨none, none⟩, [(t, .failed e)],
     [(t, .updateStatus e.jobId "failed" (some e.errorCode) (some e.message))])

/-- Runs the per-job machine over the remaining messages: a due timer fires
before the next arrival is handled, and a timer still pending after the last
arrival fires at its own fire time. -/
def gwRun (throttle : Nat) (st : GwState) :
    List (Nat × WorkerMsg) → GwState × GwOut
  | [] =>
    match st.timer with
    | none => (st, ⟨[], []⟩)
    | some ft =>
      let (st1, ws) := fireTimer st ft
      (st1, ⟨[], ws⟩)
  | (t, m) :: rest =>
    let fired :=
      match st.timer with
      | some ft => if ft ≤ t then fireTimer st ft else (st, [])
      | none => (st, [])
    let handled := handleMsg throttle t m fired.1
    let tail := gwRun throttle handled.1 rest
    (tail.1, ⟨handled.2.1 ++ tail.2.pubs, fired.2 ++ handled.2.2 ++ tail.2.writes⟩)

/-- A whole run from the idle state (fresh job: nothing buffered, no timer). -/
def gwProcess (throttle : Nat) (msgs : List (Nat × WorkerMsg)) : GwState × GwOut :=
  gwRun throttle ⟨none, none⟩ msgs

/-- Tags a timed progress event as a worker-channel message. -/
def progressMsg (a : Nat × GwProgressEvent) : Nat × WorkerMsg :=
  (a.1, .progress a.2)

/-- Times at which the run persisted something. -/
def writeTimes (o : GwOut) : List Nat := o.writes.map Prod.fst

/-- Whether a persistence call is a (throttled) progress write. -/
def isUpdateProgress : DbCall → Bool
  | .updateProgress _ _ _ _ _ _ => true
  | _ => false

/-! ### Observables used by the claims -/

/-- Whether a worker-channel message is terminal (`completed` or `failed`). -/
def isTerminalMsg : WorkerMsg → Bool
  | .progress _ => false
  | .completed _ => true
  | .failed _ => true

/-- The persistence call a terminal message triggers: `setJobCompleted` for
`completed`, `updateJobStatus failed` for `failed`. -/
def terminalDbCall : WorkerMsg → Option DbCall
  | .progress _ => none
  | .completed e => some (.setCompleted e.jobId e.filename e.outputPath (some e.size))
  | .failed e => some (.updateStatus e.jobId "failed" (some e.errorCode) (some e.message))

/-- The room publication a message triggers. -/
def pubOf : WorkerMsg → RoomPublish
  | .progress e => .progress e
  | .completed e => .completed e
  | .failed e => .failed e

/-- The last progress delta whose arrival time precedes `ft` in a timed
arrival list (what the gateway has buffered when a timer fires at `ft`). -/
def lastDeltaBefore (arr : List (Nat × GwProgressEvent)) (ft : Nat) :
    Option GwProgressEvent :=
  ((arr.filter (fun a => a.1 < ft)).map Prod.snd).getLast?

/-! ### Concrete values used by counterexamples and witnesses -/

/-- A concrete valid submission. -/
def demoReq : CreateReq :=
  { url := "https://example.test/10MB.bin", type := some "file",
    headersExtra := none, headersJson := none, transcodeJson := none,
    filenameHint := none }

/-- The row `createDownload` inserts for `demoReq` at time 0. -/
def demoRow0 : JobRow :=
  { id := "job-1", url := "https://example.test/10MB.bin", type := "file",
    status := "queued", stage := none, progress := 0, speed := none, eta := none,
    totalBytes := none, filename := none, outputPath := none, errorCode := none,
    errorMessage := none, meta := none, headers := none, createdAt := 0,
    updatedAt := 0 }

/-- The queue payload `createDownload` enqueues for `demoReq`. -/
def demoPayload : DownloadJobData :=
  { jobId := "job-1", url := "https://example.test/10MB.bin", type := "file",
    headers := none, transcode := none, filenameHint := none }

/-- `demoRow0` after a failed attempt persisted by the worker pipeline. -/
def demoFailedRow : JobRow :=
  updateJobStatus demoRow0 "failed" (some "NETWORK_ERROR") (some "network timeout") 5

/-- `demoFailedRow` after a successful second attempt persisted via
`setJobCompleted`. -/
def demoCompletedRow : JobRow :=
  setJobCompleted demoFailedRow "10MB.bin" "/data/job-1/10MB.bin" (some 10485760) 9

/-- A concrete youtube queue payload. -/
def ytJobData : DownloadJobData :=
  { jobId := "job-5", url := "https://youtube.example/watch", type := "youtube",
    headers := none, transcode := none, filenameHint := none }

/-- A concrete HLS queue payload (the repository spells the kind `m3u8`). -/
def hlsJobData : DownloadJobData :=
  { jobId := "job-2", url := "https://example.test/stream.m3u8", type := "m3u8",
    headers := none, transcode := none, filenameHint := none }

/-- A yt-dlp stderr line reporting 100 percent mid-download. -/
def ytFullProgressLine : String :=
  "[download] 100.0% of 10.00MiB at 1.00MiB/s ETA 00:00"

/-- A yt-dlp stderr line reporting 15.2 percent. -/
def ytMidProgressLine : String :=
  "[download]  15.2% of 234.56MiB at 1.23MiB/s ETA 02:34"

/-- The job id used in adapter-forwarding examples. -/
def c8JobId : String := "job-3"

/-- The parse result of `ytMidProgressLine` (15.2 percent). -/
def ytMidParsed : YtParsed :=
  { progress := mkRat 76 5, speed := some "1.23MiB/s", eta := some 154,
    totalBytes := some 245953986 }

/-- A URL with an `ftp` scheme. -/
def ftpUrl : String := "ftp://example.com/file.bin"

/-- A submission whose URL has an `ftp` scheme. -/
def ftpReq : CreateReq :=
  { url := ftpUrl, type := some "file", headersExtra := none, headersJson := none,
    transcodeJson := none, filenameHint := none }

/-- The row `createDownload` inserts for `ftpReq`. -/
def ftpRow : JobRow :=
  { id := "job-4", url := ftpUrl, type := "file", status := "queued",
    stage := none, progress := 0, speed := none, eta := none, totalBytes := none,
    filename := none, outputPath := none, errorCode := none, errorMessage := none,
    meta := none, headers := none, createdAt := 0, updatedAt := 0 }

/-- The queue payload `createDownload` enqueues for `ftpReq`. -/
def ftpPayload : DownloadJobData :=
  { jobId := "job-4", url := ftpUrl, type := "file", headers := none,
    transcode := none, filenameHint := none }

/-- A string that does not parse as a URL at all. -/
def notAUrl : String := "example.com/file.bin"

/-- A submission whose URL does not parse. -/
def badUrlReq : CreateReq :=
  { url := notAUrl, type := some "file", headersExtra := none, headersJson := none,
    transcodeJson := none, filenameHint := none }

/-- Invariant tying the per-job gateway state to the already processed
arrivals: an armed timer has the latest processed delta buffered and every
processed arrival time precedes the fire time; an idle machine holds no
buffered delta. -/
def GwBufInv (past : List (Nat × GwProgressEvent)) (st : GwState) : Prop :=
  match st.timer with
  | none => st.buffer = none
  | some ft =>
    (∃ e, st.buffer = some e ∧ (past.map Prod.snd).getLast? = some e) ∧
    ∀ a ∈ past, a.1 < ft

/-- Invariant for write-time separation: an armed timer fires at least one
throttle interval after the previous write; an idle machine has its previous
write no later than every remaining arrival. -/
def GwSepInv (T : Nat) (lw : Option Nat)
    (arr : List (Nat × GwProgressEvent)) (st : GwState) : Prop :=
  match st.timer with
  | none => ∀ w, lw = some w → ∀ a ∈ arr, w ≤ a.1
  | some ft => ∀ w, lw = some w → w + T ≤ ft

/-- Prepends the previous write time, when there is one. -/
def withLast (lw : Option Nat) (l : List Nat) : List Nat :=
  match lw with
  | none => l
  | some w => w :: l

/-- Concrete progress events for the pipeline examples. -/
def evA : GwProgressEvent :=
  { jobId := "job-9", stage := "download", progress := 10, speed := none,
    eta := none, totalBytes := none }

/-- Second concrete progress event. -/
def evB : GwProgressEvent :=
  { jobId := "job-9", stage := "download", progress := 20, speed := none,
    eta := none, totalBytes := none }

/-- Third concrete progress event. -/
def evC : GwProgressEvent :=
  { jobId := "job-9", stage := "download", progress := 30, speed := none,
    eta := none, totalBytes := none }

/-- A concrete timed progress trace. -/
def demoTrace : List (Nat × GwProgressEvent) := [(0, evA), (100, evB), (450, evC)]

/-- A concrete progress prefix preceding a terminal event. -/
def preTrace : List (Nat × GwProgressEvent) := [(0, evA), (50, evB)]

/-- A concrete completed event. -/
def cev : GwCompletedEvent :=
  { jobId := "job-9", filename := "a.bin", size := 1000,
    outputPath := "/data/job-9/a.bin" }

/-! ## Theorems about the claims -/

/-- C3 counterexample: a row reached by Submit, a persisted failure and a
subsequent successful completion is `completed` with a non-null `OutputPath`
and `Progress = 100`, yet still carries the `ErrorCode`/`ErrorMessage` of the
failed attempt — refuting that `Status=completed` implies null error fields
after `SetCompleted` runs on a previously failed job. -/
theorem completed_keeps_stale_error_counterexample :
    createDownload demoReq "job-1" 0 = .ok (demoRow0, demoPayload) ∧
    demoFailedRow.status = "failed" ∧
    demoCompletedRow.status = "completed" ∧
    demoCompletedRow.outputPath = some "/data/job-1/10MB.bin" ∧
    demoCompletedRow.progress = 100 ∧
    demoCompletedRow.errorCode = some "NETWORK_ERROR" ∧
    demoCompletedRow.errorMessage = some "network timeout" := by
  decide

/-- C3 (amended): `setJobCompleted` establishes `status = completed`,
`outputPath` non-null, `progress = 100` and `stage = completed`, but leaves
`errorCode` and `errorMessage` untouched, so a completed row may retain the
error fields written by an earlier failed attempt. -/
theorem setJobCompleted_spec (row : JobRow) (filename outputPath : String)
    (fileSize : Option Int) (now : Nat) :
    (setJobCompleted row filename outputPath fileSize now).status = "completed" ∧
    (setJobCompleted row filename outputPath fileSize now).outputPath = some outputPath ∧
    (setJobCompleted row filename outputPath fileSize now).progress = 100 ∧
    (setJobCompleted row filename outputPath fileSize now).stage = some "completed" ∧
    (setJobCompleted row filename outputPath fileSize now).errorCode = row.errorCode ∧
    (setJobCompleted row filename outputPath fileSize now).errorMessage = row.errorMessage :=
  ⟨rfl, rfl, rfl, rfl, rfl, rfl⟩

/-- C4 counterexample: the transition `failed → cancelled` is not drawn in
the state machine, yet `Cancel` on a failed row succeeds and mutates it, and
`UpdateStatus` moves a completed row back to `queued` — refuting that illegal
transitions are rejected with `IllegalTransition` and leave the row
unchanged. -/
theorem cancel_failed_job_counterexample :
    demoFailedRow.status = "failed" ∧
    cancelDownload (some demoFailedRow) 7 =
      .ok { demoFailedRow with status := "cancelled", stage := none, updatedAt := 7 } ∧
    (updateJobStatus demoCompletedRow "queued" none none 8).status = "queued" := by
  decide

/-- C4 (amended): `updateJobStatus` itself enforces no state machine — it
applies any requested status unconditionally — and `cancelDownload`'s guard
rejects only a `completed` job (plus `NotFound` for unknown ids), so
cancelling a failed job succeeds and mutates the row.  The other operations
(`pauseDownload`, `resumeDownload`, `retryDownload`) carry their own
per-operation status guards; `retryDownload`'s is proved separately. -/
theorem updateJobStatus_no_state_machine (row : JobRow) (status : String)
    (ec em : Option String) (now : Nat) (job : JobRow) :
    (updateJobStatus row status ec em now).status = status ∧
    cancelDownload none now = .error .notFound ∧
    cancelDownload (some job) now =
      (if job.status = "completed" then
        .error (.badRequest "Cannot cancel completed job")
      else
        .ok { job with status := "cancelled", stage := none, updatedAt := now }) :=
  ⟨rfl, rfl, rfl⟩

/-- C5 counterexample: `updateJobProgress` persists an out-of-range progress
value unchanged, refuting the claim that every persisted value is clamped to
the 0..100 interval. -/
theorem progress_not_clamped_counterexample :
    (updateJobProgress demoRow0 150 none none none none 3).progress = 150 ∧
    ¬ (updateJobProgress demoRow0 150 none none none none 3).progress ≤ 100 := by
  decide

/-- C5 (amended): `updateJobProgress` stores exactly the supplied progress
value — no clamping to the 0..100 interval happens on mutation (it also never
touches `status`). -/
theorem updateJobProgress_stores_raw (row : JobRow) (p : Rat)
    (stage speed : Option String) (eta totalBytes : Option Int) (now : Nat) :
    (updateJobProgress row p stage speed eta totalBytes now).progress = p ∧
    (updateJobProgress row p stage speed eta totalBytes now).status = row.status :=
  ⟨rfl, rfl⟩

/-- C6: `retryDownload` fails with `NotFound` for an unknown id, fails with
the illegal-transition error unless the status is `failed` or `cancelled`,
and on success resets progress and stage, clears speed, eta and the error
fields, sets `status = queued` and re-enqueues the stored url, kind and
options. -/
theorem retryDownload_spec (job : JobRow) (now : Nat) :
    retryDownload none now = .error .notFound ∧
    (job.status = "failed" ∨ job.status = "cancelled" →
      retryDownload (some job) now =
        .ok ({ job with
                status := "queued"
                progress := 0
                stage := none
                speed := none
                eta := none
                errorCode := none
                errorMessage := none
                updatedAt := now },
             { jobId := job.id
               url := job.url
               type := job.type
               headers := job.headers
               transcode := job.meta
               filenameHint := strOrUndef job.filename })) ∧
    (job.status ≠ "failed" ∧ job.status ≠ "cancelled" →
      retryDownload (some job) now =
        .error (.badRequest "Can only retry failed or cancelled jobs")) := by
  refine ⟨rfl, ?_, ?_⟩
  · intro h
    have hcond : ¬ (job.status ≠ "failed" ∧ job.status ≠ "cancelled") := by
      rcases h with h | h <;> simp [h]
    simp [retryDownload, hcond]
  · intro h
    simp [retryDownload, h]

/-- C6 witness: retrying the concrete failed row succeeds with the reset row
and the original payload. -/
theorem retryDownload_spec_witness :
    (demoFailedRow.status = "failed" ∨ demoFailedRow.status = "cancelled") ∧
    retryDownload (some demoFailedRow) 11 =
      .ok ({ demoFailedRow with
              status := "queued"
              progress := 0
              stage := none
              speed := none
              eta := none
              errorCode := none
              errorMessage := none
              updatedAt := 11 },
           { jobId := demoFailedRow.id
             url := demoFailedRow.url
             type := demoFailedRow.type
             headers := demoFailedRow.headers
             transcode := demoFailedRow.meta
             filenameHint := strOrUndef demoFailedRow.filename }) :=
  ⟨by decide, (retryDownload_spec demoFailedRow 11).2.1 (by decide)⟩

/-- C7 counterexample: an HLS job (kind `m3u8` in the repository) is enqueued
with priority 3, not the claimed `HighPriority` value 5. -/
theorem hls_priority_counterexample :
    hlsJobData.type = "m3u8" ∧ enqueuePriority hlsJobData = 3 ∧ (3 : Nat) ≠ 5 := by
  decide

/-- C7 (amended): the broker assigns priority 5 only to jobs of kind
`youtube`; every other kind — including `m3u8` (HLS), `file`, `twitter`,
`pinterest` and `auto` — gets the default priority 3. -/
theorem enqueuePriority_spec (d : DownloadJobData) :
    (d.type = "youtube" → enqueuePriority d = 5) ∧
    (d.type ≠ "youtube" → enqueuePriority d = 3) := by
  constructor <;> intro h <;>
    simp [enqueuePriority, addDownloadJobPriority, h]

/-- C7 witness: the concrete youtube payload gets priority 5. -/
theorem enqueuePriority_spec_witness :
    ytJobData.type = "youtube" ∧ enqueuePriority ytJobData = 5 :=
  ⟨by decide, (enqueuePriority_spec ytJobData).1 (by decide)⟩

/-- C8 counterexample: the yt-dlp adapter forwards the parsed percentage of a
mid-run download line without clamping — the 100-percent line produces a
`progress` event with value 100 > 95 during the download stage, refuting the
claim that every adapter clamps mid-run progress to the 0..95 band. -/
theorem ytdlp_unclamped_counterexample :
    ytdlpForward c8JobId ytFullProgressLine =
      some { jobId := c8JobId, stage := "download", progress := 100,
             speed := some "1.00MiB/s", eta := some 0,
             totalBytes := some 10485760 } ∧
    ¬ ((100 : Rat) ≤ 95) := by
  decide

/-- C8 (amended): only the pinterest (and twitter) stdout handlers clamp the
mid-run percentage to the 0..95 band; the yt-dlp adapter forwards the parsed
percentage unmodified, so mid-run progress events above 95 are forwarded to
the pipeline. -/
theorem midrunProgressClamp_spec (st : PinState) (parsed : PinParsed) (p : Int)
    (jobId line : String) (yp : YtParsed) :
    ((pinterestStep st parsed).2 = some p → 0 ≤ p ∧ p ≤ 95) ∧
    (parseYtDlpProgressLine line = some yp →
      ytdlpForward jobId line =
        some { jobId := jobId, stage := "download", progress := yp.progress,
               speed := yp.speed, eta := yp.eta, totalBytes := yp.totalBytes }) := by
  constructor
  · intro h
    unfold pinterestStep at h
    repeat' split at h
    all_goals simp at h
    all_goals repeat' split at h
    all_goals simp_all
    all_goals omega
  · intro h
    simp [ytdlpForward, h]

/-- C8 witness: a pinterest counter line emits a clamped value inside the
band, and the concrete yt-dlp line is forwarded with its parsed percentage. -/
theorem midrunProgressClamp_spec_witness :
    ((pinterestStep ⟨100, 0⟩ ⟨some 5, some 20, none⟩).2 = some 25 ∧
      (0 ≤ (25 : Int) ∧ (25 : Int) ≤ 95)) ∧
    (parseYtDlpProgressLine ytMidProgressLine = some ytMidParsed ∧
      ytdlpForward c8JobId ytMidProgressLine =
        some { jobId := c8JobId, stage := "download",
               progress := ytMidParsed.progress, speed := ytMidParsed.speed,
               eta := ytMidParsed.eta, totalBytes := ytMidParsed.totalBytes }) :=
  ⟨⟨by decide,
    (midrunProgressClamp_spec ⟨100, 0⟩ ⟨some 5, some 20, none⟩ 25 c8JobId
      ytMidProgressLine ytMidParsed).1 (by decide)⟩,
   ⟨by decide,
    (midrunProgressClamp_spec ⟨100, 0⟩ ⟨some 5, some 20, none⟩ 25 c8JobId
      ytMidProgressLine ytMidParsed).2 (by decide)⟩⟩

/-- C9 counterexample: a submission whose URL has scheme `ftp` passes the
validation and is stored, refuting the claim that every accepted submission
has an `http` or `https` scheme. -/
theorem ftp_url_accepted_counterexample :
    createDownload ftpReq "job-4" 0 = .ok (ftpRow, ftpPayload) ∧
    urlScheme ftpRow.url = some "ftp" ∧
    urlScheme ftpRow.url ≠ some "http" ∧
    urlScheme ftpRow.url ≠ some "https" := by
  decide

/-- C9 (amended): Submit rejects with `InvalidInput` exactly the requests
whose url does not parse as an absolute URL at all (the `new URL` check
behind zod's url validator); any parsing URL is accepted and stored verbatim,
with no restriction of the scheme to http or https. -/
theorem createDownload_url_validation (req : CreateReq) (jobId : String) (now : Nat) :
    (jsUrlParses req.url = false →
      createDownload req jobId now = .error (.badRequest "Must be a valid URL")) ∧
    (∀ row payload, createDownload req jobId now = .ok (row, payload) →
      row.url = req.url ∧ jsUrlParses req.url = true) := by
  constructor
  · intro h
    simp [createDownload, h]
  · intro row payload h
    by_cases hu : jsUrlParses req.url
    · refine ⟨?_, hu⟩
      simp only [createDownload, hu, Bool.not_true, Bool.false_eq_true,
        if_false] at h
      split at h
      · exact absurd h (by simp)
      · split at h
        · exact absurd h (by simp)
        · split at h
          · exact absurd h (by simp)
          · simp only [Except.ok.injEq, Prod.mk.injEq] at h
            obtain ⟨⟨rfl, -⟩, -⟩ := h
            rfl
    · simp [createDownload, hu] at h

/-- C9 witness: a string with no scheme is rejected with the invalid-URL
error. -/
theorem createDownload_url_validation_witness :
    jsUrlParses notAUrl = false ∧
    createDownload badUrlReq "job-6" 0 = .error (.badRequest "Must be a valid URL") :=
  ⟨by decide, (createDownload_url_validation badUrlReq "job-6" 0).1 (by decide)⟩

/-- C10: `getDownload` answers `NotFound` for unknown ids and otherwise
returns exactly the projection onto id, url, type, status, stage, progress,
speed, eta, totalBytes, filename, the timestamps and the error fields; the
snapshot is independent of the stored `outputPath`, so the output location of
a completed job is never exposed through `Get`. -/
theorem getDownload_omits_outputPath (row : JobRow) (op : Option String) :
    getDownload none = .error .notFound ∧
    getDownload (some row) =
      .ok { jobId := row.id, url := row.url, type := row.type,
            status := row.status, stage := row.stage, progress := row.progress,
            speed := row.speed, eta := row.eta,
            totalBytes := row.totalBytes.map (fun n => toString n),
            filename := row.filename, createdAt := row.createdAt,
            updatedAt := row.updatedAt, errorCode := row.errorCode,
            errorMessage := row.errorMessage } ∧
    getDownload (some { row with outputPath := op }) = getDownload (some row) :=
  ⟨rfl, rfl, rfl⟩

/-! ### Helper lemmas for the progress pipeline -/

/-- Every progress arrival is published to the room at its arrival time, in
arrival order, regardless of the machine state: timer fires contribute no
publications and `handleProgress` publishes before buffering. -/
theorem gwRun_pubs (T : Nat) (st : GwState) (arr : List (Nat × GwProgressEvent)) :
    (gwRun T st (arr.map progressMsg)).2.pubs =
      arr.map (fun a => (a.1, RoomPublish.progress a.2)) := by
  induction arr generalizing st with
  | nil =>
    cases hst : st.timer with
    | none => simp [gwRun, hst]
    | some ft => cases hbuf : st.buffer <;> simp [gwRun, hst, fireTimer, hbuf]
  | cons a rest ih =>
    cases hst : st.timer with
    | none => simp [gwRun, hst, progressMsg, handleMsg, ih]
    | some ft =>
      by_cases hft : ft ≤ a.1 <;>
        cases hbuf : st.buffer <;>
          simp [gwRun, hst, hft, fireTimer, hbuf, progressMsg, handleMsg, ih]

/-- A list whose consecutive elements are at least `T` apart has at most
`(W + T - 1) / T` elements inside any half-open window of width `W`. -/
theorem sepPairwise_window_count (T : Nat) (hT : 0 < T) :
    ∀ l : List Nat, l.Pairwise (fun x y => x + T ≤ y) →
      ∀ a W, 0 < W → (∀ x ∈ l, a ≤ x ∧ x < a + W) →
        l.length ≤ (W + T - 1) / T := by
  intro l
  induction l with
  | nil => intro _ a W _ _; simp
  | cons x xs ih =>
    intro hsep a W hW hin
    rcases List.pairwise_cons.mp hsep with ⟨hx, hxs⟩
    rcases hin x (by simp) with ⟨hax, hxW⟩
    cases xs with
    | nil =>
      have h1 : T ≤ W + T - 1 := by omega
      simpa using (Nat.one_le_div_iff hT).mpr h1
    | cons y ys =>
      have hy : x + T ≤ y := hx y (by simp)
      rcases hin y (by simp) with ⟨hay, hyW⟩
      have hTW : T < W := by omega
      have hin2 : ∀ z ∈ y :: ys, a + T ≤ z ∧ z < a + T + (W - T) := by
        intro z hz
        rcases hin z (List.mem_cons_of_mem x hz) with ⟨haz, hzW⟩
        have hxz : x + T ≤ z := hx z hz
        constructor <;> omega
      have hlen := ih hxs (a + T) (W - T) (by omega) hin2
      have e1 : W - T + T - 1 = W - 1 := by omega
      have e2 : W + T - 1 = W - 1 + T := by omega
      rw [e1] at hlen
      calc (x :: y :: ys).length = (y :: ys).length + 1 := by simp
        _ ≤ (W - 1) / T + 1 := Nat.add_le_add_right hlen 1
        _ = (W - 1 + T) / T := (Nat.add_div_right _ hT).symm
        _ = (W + T - 1) / T := by rw [← e2]

/-- Splitting a nondecreasing time list around one arrival. -/
theorem pairwise_le_split (past rest : List (Nat × GwProgressEvent))
    (a : Nat × GwProgressEvent)
    (h : ((past ++ a :: rest).map Prod.fst).Pairwise (fun x y => x ≤ y)) :
    (∀ b ∈ past, b.1 ≤ a.1) ∧ (∀ b ∈ rest, a.1 ≤ b.1) := by
  rw [List.map_append, List.pairwise_append] at h
  obtain ⟨h1, h2, h3⟩ := h
  constructor
  · intro b hb
    exact h3 b.1 (List.mem_map_of_mem Prod.fst hb) a.1 (by simp)
  · intro b hb
    exact (List.pairwise_cons.mp (by simpa using h2)).1 b.1
      (List.mem_map_of_mem Prod.fst hb)

/-- Every throttled write of a run started in a coherent state carries the
latest delta that arrived strictly before the fire time. -/
theorem gwRun_writes_latest (T : Nat) (hT : 0 < T) :
    ∀ (arr past : List (Nat × GwProgressEvent)) (st : GwState),
      ((past ++ arr).map Prod.fst).Pairwise (fun x y => x ≤ y) →
      GwBufInv past st →
      ∀ w ∈ (gwRun T st (arr.map progressMsg)).2.writes,
        ∃ e, w.2 = progressWriteOf e ∧
          lastDeltaBefore (past ++ arr) w.1 = some e := by
  intro arr
  induction arr with
  | nil =>
    intro past st hmono hinv w hw
    cases hst : st.timer with
    | none => simp [gwRun, hst] at hw
    | some ft =>
      simp only [GwBufInv, hst] at hinv
      obtain ⟨⟨e, hbuf, hlast⟩, hpast⟩ := hinv
      simp [gwRun, hst, fireTimer, hbuf] at hw
      obtain ⟨rfl, rfl⟩ := hw
      refine ⟨e, rfl, ?_⟩
      have hfil : past.filter (fun b => decide (b.1 < ft)) = past :=
        List.filter_eq_self.mpr (fun b hb => decide_eq_true (hpast b hb))
      simp [lastDeltaBefore, hfil, hlast]
  | cons a rest ih =>
    intro past st hmono hinv w hw
    obtain ⟨hple, hrge⟩ := pairwise_le_split past rest a hmono
    have hmono' : (((past ++ [a]) ++ rest).map Prod.fst).Pairwise (fun x y => x ≤ y) := by
      rw [List.append_cons] at hmono
      exact hmono
    have hlast' : ((past ++ [a]).map Prod.snd).getLast? = some a.2 := by
      rw [List.map_append]
      simp
    have hcons : past ++ a :: rest = (past ++ [a]) ++ rest := List.append_cons past a rest
    cases hst : st.timer with
    | none =>
      simp only [GwBufInv, hst] at hinv
      simp only [List.map_cons, gwRun, progressMsg, handleMsg, hst] at hw
      have := ih (past ++ [a]) ⟨some a.2, some (a.1 + T)⟩ hmono' ?_ w ?_
      · rwa [← hcons] at this
      · refine ⟨⟨a.2, rfl, hlast'⟩, ?_⟩
        intro b hb
        rcases List.mem_append.mp hb with hb | hb
        · have := hple b hb; omega
        · simp at hb; subst hb; omega
      · exact hw
    | some ft =>
      simp only [GwBufInv, hst] at hinv
      obtain ⟨⟨e, hbuf, hlast⟩, hpast⟩ := hinv
      by_cases hft : ft ≤ a.1
      · simp only [List.map_cons, gwRun, progressMsg, handleMsg, hst, hft,
          if_true, fireTimer, hbuf] at hw
        simp only [List.cons_append, List.nil_append, List.mem_cons] at hw
        rcases hw with rfl | hw
        · refine ⟨e, rfl, ?_⟩
          have hfilp : past.filter (fun b => decide (b.1 < ft)) = past :=
            List.filter_eq_self.mpr (fun b hb => decide_eq_true (hpast b hb))
          have hfilr : (a :: rest).filter (fun b => decide (b.1 < ft)) = [] := by
            rw [List.filter_eq_nil_iff]
            intro b hb
            rcases List.mem_cons.mp hb with rfl | hb
            · simp; omega
            · have := hrge b hb; simp; omega
          simp [lastDeltaBefore, List.filter_append, hfilp, hfilr, hlast]
        · have := ih (past ++ [a]) ⟨some a.2, some (a.1 + T)⟩ hmono' ?_ w hw
          · rwa [← hcons] at this
          · refine ⟨⟨a.2, rfl, hlast'⟩, ?_⟩
            intro b hb
            rcases List.mem_append.mp hb with hb | hb
            · have := hpast b hb; omega
            · simp at hb; subst hb; omega
      · simp only [List.map_cons, gwRun, progressMsg, handleMsg, hst, hft,
          if_false] at hw
        have := ih (past ++ [a]) ⟨some a.2, some ft⟩ hmono' ?_ w ?_
        · rwa [← hcons] at this
        · refine ⟨⟨a.2, rfl, hlast'⟩, ?_⟩
          intro b hb
          rcases List.mem_append.mp hb with hb | hb
          · exact hpast b hb
          · simp at hb; subst hb; omega
        · exact hw

/-- Consecutive persistence times of a run are separated by at least one
throttle interval (also from the previous write before the run). -/
theorem gwRun_writes_sep (T : Nat) (hT : 0 < T) :
    ∀ (arr : List (Nat × GwProgressEvent)) (st : GwState) (lw : Option Nat),
      (arr.map Prod.fst).Pairwise (fun x y => x ≤ y) →
      GwSepInv T lw arr st →
      (withLast lw (writeTimes (gwRun T st (arr.map progressMsg)).2)).Chain'
        (fun x y => x + T ≤ y) := by
  intro arr
  induction arr with
  | nil =>
    intro st lw hmono hinv
    cases hst : st.timer with
    | none =>
      simp only [GwSepInv, hst] at hinv
      cases lw <;> simp [gwRun, hst, withLast, writeTimes]
    | some ft =>
      simp only [GwSepInv, hst] at hinv
      cases hbuf : st.buffer with
      | none =>
        cases lw <;> simp [gwRun, hst, fireTimer, hbuf, withLast, writeTimes]
      | some e =>
        cases lw with
        | none => simp [gwRun, hst, fireTimer, hbuf, withLast, writeTimes]
        | some w =>
          simp [gwRun, hst, fireTimer, hbuf, withLast, writeTimes]
          exact hinv w rfl
  | cons a rest ih =>
    intro st lw hmono hinv
    rw [List.map_cons] at hmono
    have hcons := List.pairwise_cons.mp hmono
    have hrge : ∀ b ∈ rest, a.1 ≤ b.1 := fun b hb =>
      hcons.1 b.1 (List.mem_map_of_mem Prod.fst hb)
    have hmono' : (rest.map Prod.fst).Pairwise (fun x y => x ≤ y) := hcons.2
    cases hst : st.timer with
    | none =>
      simp only [GwSepInv, hst] at hinv
      have step : (gwRun T st ((a :: rest).map progressMsg)).2.writes =
          (gwRun T ⟨some a.2, some (a.1 + T)⟩ (rest.map progressMsg)).2.writes := by
        simp [gwRun, progressMsg, handleMsg, hst]
      rw [writeTimes, step, ← writeTimes]
      refine ih ⟨some a.2, some (a.1 + T)⟩ lw hmono' ?_
      simp only [GwSepInv]
      intro w hw
      have := hinv w hw a (by simp)
      omega
    | some ft =>
      simp only [GwSepInv, hst] at hinv
      by_cases hft : ft ≤ a.1
      · cases hbuf : st.buffer with
        | none =>
          have step : (gwRun T st ((a :: rest).map progressMsg)).2.writes =
              (gwRun T ⟨some a.2, some (a.1 + T)⟩ (rest.map progressMsg)).2.writes := by
            simp [gwRun, progressMsg, handleMsg, hst, hft, fireTimer, hbuf]
          rw [writeTimes, step, ← writeTimes]
          refine ih ⟨some a.2, some (a.1 + T)⟩ lw hmono' ?_
          simp only [GwSepInv]
          intro w hw
          have := hinv w hw
          omega
        | some e =>
          have step : (gwRun T st ((a :: rest).map progressMsg)).2.writes =
              (ft, progressWriteOf e) ::
                (gwRun T ⟨some a.2, some (a.1 + T)⟩ (rest.map progressMsg)).2.writes := by
            simp [gwRun, progressMsg, handleMsg, hst, hft, fireTimer, hbuf]
          have htail := ih ⟨some a.2, some (a.1 + T)⟩ (some ft) hmono' ?_
          · rw [writeTimes, step]
            simp only [List.map_cons]
            simp only [withLast] at htail
            cases lw with
            | none => exact htail
            | some w =>
              simp only [withLast]
              exact List.Chain'.cons (hinv w rfl) htail
          · simp only [GwSepInv]
            intro w hw
            cases hw
            omega
      · have step : (gwRun T st ((a :: rest).map progressMsg)).2.writes =
            (gwRun T ⟨some a.2, some ft⟩ (rest.map progressMsg)).2.writes := by
          simp [gwRun, progressMsg, handleMsg, hst, hft]
        rw [writeTimes, step, ← writeTimes]
        refine ih ⟨some a.2, some ft⟩ lw hmono' ?_
        simp only [GwSepInv]
        intro w hw
        exact hinv w hw

/-- Appending in front preserves a known last element. -/
theorem getLast?_cons_of_getLast? {α : Type} {l : List α} {x y : α}
    (h : l.getLast? = some y) : (x :: l).getLast? = some y := by
  rw [← List.singleton_append]
  exact Option.mem_def.mp
    (List.mem_getLast?_append_of_mem_getLast? (Option.mem_def.mpr h))

/-- Processing any progress prefix followed by a terminal worker message
from any state: the machine ends cleared, the terminal persistence call is
the last write, the terminal publication is the last room event, and every
throttled progress write happens no later than the terminal time. -/
theorem gwRun_terminal (T : Nat) :
    ∀ (pre : List (Nat × GwProgressEvent)) (st : GwState) (t : Nat) (m : WorkerMsg),
      isTerminalMsg m = true →
      (∀ a ∈ pre, a.1 ≤ t) →
      (gwRun T st (pre.map progressMsg ++ [(t, m)])).1 = ⟨none, none⟩ ∧
      (∃ dc, terminalDbCall m = some dc ∧
        (gwRun T st (pre.map progressMsg ++ [(t, m)])).2.writes.getLast? = some (t, dc)) ∧
      (gwRun T st (pre.map progressMsg ++ [(t, m)])).2.pubs.getLast? = some (t, pubOf m) ∧
      (∀ w ∈ (gwRun T st (pre.map progressMsg ++ [(t, m)])).2.writes,
        isUpdateProgress w.2 = true → w.1 ≤ t) := by
  intro pre
  induction pre with
  | nil =>
    intro st t m hterm hpre
    cases m with
    | progress e => simp [isTerminalMsg] at hterm
    | completed e =>
      cases hst : st.timer with
      | none =>
        simp [gwRun, handleMsg, hst, terminalDbCall, pubOf, isUpdateProgress]
      | some ft =>
        by_cases hft : ft ≤ t <;> cases hbuf : st.buffer <;>
          simp [gwRun, handleMsg, hst, hft, fireTimer, hbuf, terminalDbCall,
            pubOf, isUpdateProgress]
    | failed e =>
      cases hst : st.timer with
      | none =>
        simp [gwRun, handleMsg, hst, terminalDbCall, pubOf, isUpdateProgress]
      | some ft =>
        by_cases hft : ft ≤ t <;> cases hbuf : st.buffer <;>
          simp [gwRun, handleMsg, hst, hft, fireTimer, hbuf, terminalDbCall,
            pubOf, isUpdateProgress]
  | cons a rest ih =>
    intro st t m hterm hpre
    have hat : a.1 ≤ t := hpre a (by simp)
    have hpre2 : ∀ b ∈ rest, b.1 ≤ t := fun b hb => hpre b (List.mem_cons_of_mem a hb)
    cases hst : st.timer with
    | none =>
      obtain ⟨ih1, ⟨dc, hdc, ih2⟩, ih3, ih4⟩ :=
        ih ⟨some a.2, some (a.1 + T)⟩ t m hterm hpre2
      have step :
          gwRun T st (((a :: rest).map progressMsg) ++ [(t, m)]) =
            ((gwRun T ⟨some a.2, some (a.1 + T)⟩ (rest.map progressMsg ++ [(t, m)])).1,
             ⟨(a.1, RoomPublish.progress a.2) ::
                (gwRun T ⟨some a.2, some (a.1 + T)⟩ (rest.map progressMsg ++ [(t, m)])).2.pubs,
              (gwRun T ⟨some a.2, some (a.1 + T)⟩ (rest.map progressMsg ++ [(t, m)])).2.writes⟩) := by
        simp [gwRun, progressMsg, handleMsg, hst]
      rw [step]
      exact ⟨ih1, ⟨dc, hdc, ih2⟩, getLast?_cons_of_getLast? ih3, ih4⟩
    | some ft =>
      by_cases hft : ft ≤ a.1
      · cases hbuf : st.buffer with
        | some e =>
          obtain ⟨ih1, ⟨dc, hdc, ih2⟩, ih3, ih4⟩ :=
            ih ⟨some a.2, some (a.1 + T)⟩ t m hterm hpre2
          have step :
              gwRun T st (((a :: rest).map progressMsg) ++ [(t, m)]) =
                ((gwRun T ⟨some a.2, some (a.1 + T)⟩ (rest.map progressMsg ++ [(t, m)])).1,
                 ⟨(a.1, RoomPublish.progress a.2) ::
                    (gwRun T ⟨some a.2, some (a.1 + T)⟩ (rest.map progressMsg ++ [(t, m)])).2.pubs,
                  (ft, progressWriteOf e) ::
                    (gwRun T ⟨some a.2, some (a.1 + T)⟩ (rest.map progressMsg ++ [(t, m)])).2.writes⟩) := by
            simp [gwRun, progressMsg, handleMsg, hst, hft, fireTimer, hbuf]
          rw [step]
          refine ⟨ih1, ⟨dc, hdc, getLast?_cons_of_getLast? ih2⟩,
            getLast?_cons_of_getLast? ih3, ?_⟩
          intro w hw hup
          rcases List.mem_cons.mp hw with rfl | hw
          · omega
          · exact ih4 w hw hup
        | none =>
          obtain ⟨ih1, ⟨dc, hdc, ih2⟩, ih3, ih4⟩ :=
            ih ⟨some a.2, some (a.1 + T)⟩ t m hterm hpre2
          have step :
              gwRun T st (((a :: rest).map progressMsg) ++ [(t, m)]) =
                ((gwRun T ⟨some a.2, some (a.1 + T)⟩ (rest.map progressMsg ++ [(t, m)])).1,
                 ⟨(a.1, RoomPublish.progress a.2) ::
                    (gwRun T ⟨some a.2, some (a.1 + T)⟩ (rest.map progressMsg ++ [(t, m)])).2.pubs,
                  (gwRun T ⟨some a.2, some (a.1 + T)⟩ (rest.map progressMsg ++ [(t, m)])).2.writes⟩) := by
            simp [gwRun, progressMsg, handleMsg, hst, hft, fireTimer, hbuf]
          rw [step]
          exact ⟨ih1, ⟨dc, hdc, ih2⟩, getLast?_cons_of_getLast? ih3, ih4⟩
      · obtain ⟨ih1, ⟨dc, hdc, ih2⟩, ih3, ih4⟩ :=
          ih ⟨some a.2, some ft⟩ t m hterm hpre2
        have step :
            gwRun T st (((a :: rest).map progressMsg) ++ [(t, m)]) =
              ((gwRun T ⟨some a.2, some ft⟩ (rest.map progressMsg ++ [(t, m)])).1,
               ⟨(a.1, RoomPublish.progress a.2) ::
                  (gwRun T ⟨some a.2, some ft⟩ (rest.map progressMsg ++ [(t, m)])).2.pubs,
                (gwRun T ⟨some a.2, some ft⟩ (rest.map progressMsg ++ [(t, m)])).2.writes⟩) := by
          simp [gwRun, progressMsg, handleMsg, hst, hft]
        rw [step]
        exact ⟨ih1, ⟨dc, hdc, ih2⟩, getLast?_cons_of_getLast? ih3, ih4⟩

/-- C1: for every job and every nondecreasing timed sequence of progress
events handled by `WorkerEventsGateway.handleProgress` with throttle `T > 0`:
every event is published to the room `job:jobId` immediately and
unconditionally, in order, with none dropped or delayed; consecutive
`updateJobProgress` calls are at least `T` apart — hence at most
`(W + T - 1) / T` persisted writes inside any half-open window of width `W`
— and each persisted write carries the latest delta buffered before its fire
time. -/
theorem progressPipeline_throttle_spec (T : Nat) (hT : 0 < T)
    (arr : List (Nat × GwProgressEvent))
    (hmono : (arr.map Prod.fst).Pairwise (fun x y => x ≤ y)) :
    (gwProcess T (arr.map progressMsg)).2.pubs =
        arr.map (fun a => (a.1, RoomPublish.progress a.2)) ∧
    (∀ w ∈ (gwProcess T (arr.map progressMsg)).2.writes,
        ∃ e, w.2 = progressWriteOf e ∧ lastDeltaBefore arr w.1 = some e) ∧
    (writeTimes (gwProcess T (arr.map progressMsg)).2).Chain'
        (fun x y => x + T ≤ y) ∧
    (∀ a W, 0 < W →
        ((writeTimes (gwProcess T (arr.map progressMsg)).2).filter
            (fun x => a ≤ x ∧ x < a + W)).length ≤ (W + T - 1) / T) := by
  have hinv0 : GwSepInv T none arr ⟨none, none⟩ := by
    intro w hw
    exact absurd hw (by simp)
  have hchain : (writeTimes (gwProcess T (arr.map progressMsg)).2).Chain'
      (fun x y => x + T ≤ y) := by
    have := gwRun_writes_sep T hT arr ⟨none, none⟩ none hmono hinv0
    simpa [withLast] using this
  refine ⟨gwRun_pubs T ⟨none, none⟩ arr, ?_, hchain, ?_⟩
  · have hbuf0 : GwBufInv [] (⟨none, none⟩ : GwState) := rfl
    have := gwRun_writes_latest T hT arr [] ⟨none, none⟩ (by simpa using hmono) hbuf0
    simpa using this
  · intro a W hW
    have htr : IsTrans Nat (fun x y => x + T ≤ y) :=
      ⟨fun x y z hxy hyz => by omega⟩
    have hpw : (writeTimes (gwProcess T (arr.map progressMsg)).2).Pairwise
        (fun x y => x + T ≤ y) :=
      (@List.chain'_iff_pairwise _ _ htr _).mp hchain
    refine sepPairwise_window_count T hT _ (hpw.filter _) a W hW ?_
    intro x hx
    exact of_decide_eq_true (List.mem_filter.mp hx).2

/-- C1 witness: a concrete three-event trace with throttle 300. -/
theorem progressPipeline_throttle_spec_witness :
    ((0 : Nat) < 300 ∧
      (demoTrace.map Prod.fst).Pairwise (fun x y => x ≤ y)) ∧
    ((gwProcess 300 (demoTrace.map progressMsg)).2.pubs =
        demoTrace.map (fun a => (a.1, RoomPublish.progress a.2)) ∧
    (∀ w ∈ (gwProcess 300 (demoTrace.map progressMsg)).2.writes,
        ∃ e, w.2 = progressWriteOf e ∧ lastDeltaBefore demoTrace w.1 = some e) ∧
    (writeTimes (gwProcess 300 (demoTrace.map progressMsg)).2).Chain'
        (fun x y => x + 300 ≤ y) ∧
    (∀ a W, 0 < W →
        ((writeTimes (gwProcess 300 (demoTrace.map progressMsg)).2).filter
            (fun x => a ≤ x ∧ x < a + W)).length ≤ (W + 300 - 1) / 300)) :=
  ⟨⟨by decide, by decide⟩,
   progressPipeline_throttle_spec 300 (by decide) demoTrace (by decide)⟩

/-- C2: when a terminal worker message (`completed` or `failed`) arrives
after a job's progress events, the pending timer is cancelled and the
buffered delta discarded (the machine ends cleared and no throttled write
happens after the terminal time), the terminal state is persisted —
`setJobCompleted` for `completed`, `updateJobStatus failed` for `failed` — as
the last persistence call, and the terminal event is published to the room as
the last room event. -/
theorem terminalFlush_spec (T : Nat) (pre : List (Nat × GwProgressEvent))
    (t : Nat) (m : WorkerMsg) (hterm : isTerminalMsg m = true)
    (hpre : ∀ a ∈ pre, a.1 ≤ t) :
    (gwProcess T (pre.map progressMsg ++ [(t, m)])).1 = ⟨none, none⟩ ∧
    (∃ dc, terminalDbCall m = some dc ∧
      (gwProcess T (pre.map progressMsg ++ [(t, m)])).2.writes.getLast? =
        some (t, dc)) ∧
    (gwProcess T (pre.map progressMsg ++ [(t, m)])).2.pubs.getLast? =
      some (t, pubOf m) ∧
    (∀ w ∈ (gwProcess T (pre.map progressMsg ++ [(t, m)])).2.writes,
      isUpdateProgress w.2 = true → w.1 ≤ t) :=
  gwRun_terminal T pre ⟨none, none⟩ t m hterm hpre

/-- C2 witness: two progress events followed by a concrete `completed` event
under a large throttle. -/
theorem terminalFlush_spec_witness :
    (isTerminalMsg (WorkerMsg.completed cev) = true ∧
      (∀ a ∈ preTrace, a.1 ≤ 60)) ∧
    ((gwProcess 10000 (preTrace.map progressMsg ++ [(60, WorkerMsg.completed cev)])).1 =
        ⟨none, none⟩ ∧
    (∃ dc, terminalDbCall (WorkerMsg.completed cev) = some dc ∧
      (gwProcess 10000
          (preTrace.map progressMsg ++ [(60, WorkerMsg.completed cev)])).2.writes.getLast? =
        some (60, dc)) ∧
    (gwProcess 10000
        (preTrace.map progressMsg ++ [(60, WorkerMsg.completed cev)])).2.pubs.getLast? =
      some (60, pubOf (WorkerMsg.completed cev)) ∧
    (∀ w ∈ (gwProcess 10000
        (preTrace.map progressMsg ++ [(60, WorkerMsg.completed cev)])).2.writes,
      isUpdateProgress w.2 = true → w.1 ≤ 60)) :=
  ⟨⟨by decide, by decide⟩,
   terminalFlush_spec 10000 preTrace 60 (WorkerMsg.completed cev) (by decide) (by decide)⟩

end ADM

